import Mathlib

/-!
# Verification of the webgl_voronoi rover simulation

Shallow embedding of the `GameBoard` simulation from the repository's Svelte
sources.  The repository contains several variants of the same program:

* `src/unnamed/part_000` — WebGL variant, respawn-in-place lifecycle with a
  fixed rover population and an incrementally updated `delaunayInput` buffer
  (`TARGET_FPS = 10`, `CLIP_DISTANCE = 100`).  Embedded in namespace `V0`.
* `src/src/routes/index.svelte` (first script) — 2D-canvas variant, dynamic
  probabilistic spawn lifecycle with a `MAX_ROVERS` prune
  (`TARGET_FPS = 30`, `CLIP_DISTANCE = 100`).  Embedded in namespace `VDyn`.
* `src/unnamed/part_001` — early 2D-canvas variant, dynamic lifecycle with a
  one-way `hasEnteredScreen` flag (`TARGET_FPS = 60`, `CLIP_DISTANCE = 10`).
  Embedded in namespace `V1`.

Real-valued quantities are modelled over `ℝ` (the idealisation of JS
numbers); the namespace `JS` additionally embeds the chord computation over
an exact model of IEEE special values (`NaN`, `±Infinity`, finite rationals)
for the degenerate-chord analysis, where division by zero matters.
-/

/-- Source class `Vector2` (identical in every variant): an immutable pair of
coordinates with `plus` and `minus`. -/
structure Vector2 where
  x : ℝ
  y : ℝ

instance : Inhabited Vector2 := ⟨⟨0, 0⟩⟩

/-- JS number comparisons are total, so every branch condition of the source
is decidable; over `ℝ` this is classical.  Low priority keeps the computable
instances (used by `decide` in the `JS` namespace) in charge whenever they
exist. -/
noncomputable instance (priority := low) decidableOfProp (p : Prop) :
    Decidable p :=
  Classical.propDecidable p

/-- `Vector2.minus` from the source: componentwise difference. -/
def Vector2.minus (a b : Vector2) : Vector2 := ⟨a.x - b.x, a.y - b.y⟩

/-- `Vector2.plus` from the source: componentwise sum. -/
def Vector2.plus (a b : Vector2) : Vector2 := ⟨a.x + b.x, a.y + b.y⟩

/-- Source class `RGB` / d3 color record: a normalized rgb triple.  Only the
fact that it is an opaque value matters for the claims. -/
structure RGB where
  r : ℝ
  g : ℝ
  b : ℝ

/-- Source helper `randomRange(min, max)` = `Math.random() * (max - min) + min`,
with the uniform draw `u` passed explicitly. -/
def randomRange (lo hi u : ℝ) : ℝ := u * (hi - lo) + lo

namespace V0

/-- `TARGET_FPS` of `src/unnamed/part_000`. -/
def TARGET_FPS : ℝ := 10

end V0

/-- The four candidate boundary intersections of the random chord, from the
spawn block (identical text in `src/unnamed/part_000` lines 363–375,
`src/src/routes/index.svelte` lines 103–115 and `src/unnamed/part_001`
lines 95–107):

  const m = Math.sin(angle) / Math.cos(angle);
  const b = location.y - m * location.x;
  const xUp = -b / m;            // y = 0
  const xDown = (ymax - b) / m;  // y = ymax
  const yLeft = b;               // x = 0
  const yRight = m * xmax + b;   // x = xmax

The two RNG draws `Math.sin(angle)` and `Math.cos(angle)` are passed in as
`sinA` and `cosA`; `anchor` is the random interior point `location`. -/
noncomputable def chordCandidates (xmax ymax : ℝ) (anchor : Vector2)
    (sinA cosA : ℝ) : List Vector2 :=
  let m := sinA / cosA
  let b := anchor.y - m * anchor.x
  let xUp := -b / m
  let xDown := (ymax - b) / m
  let yLeft := b
  let yRight := m * xmax + b
  [⟨xUp, 0⟩, ⟨xDown, ymax⟩, ⟨0, yLeft⟩, ⟨xmax, yRight⟩]

/-- The chord computation of the spawn / respawn block
(`src/unnamed/part_000` lines 360–395, `src/src/routes/index.svelte`
lines 101–131): sort the four candidate points by x-coordinate, pick one
extreme as `spawn` and the other as `despawn` according to the direction
coin (`Math.random() < 0.5`), then clamp only the spawn point into
`[-clip, xmax+clip] × [-clip, ymax+clip]` via

  spawn.x = Math.max(spawn.x, 0 - CLIP_DISTANCE);
  spawn.x = Math.min(spawn.x, xmax + CLIP_DISTANCE);  // and same for y

Returns `(clamped spawn, despawn)`; the despawn point is not clamped. -/
noncomputable def computeChord (xmax ymax clip : ℝ) (anchor : Vector2)
    (sinA cosA : ℝ) (coin : Bool) : Vector2 × Vector2 :=
  let pointsOfInterest := chordCandidates xmax ymax anchor sinA cosA
  let sorted := pointsOfInterest.insertionSort (fun a b => a.x ≤ b.x)
  let first := sorted.headD ⟨0, 0⟩
  let last := sorted.getLastD ⟨0, 0⟩
  let sp := if coin then first else last
  let dp := if coin then last else first
  let sx := min (max sp.x (0 - clip)) (xmax + clip)
  let sy := min (max sp.y (0 - clip)) (ymax + clip)
  (⟨sx, sy⟩, dp)

namespace V0

/-- `CUTOFF_FPS` of `src/unnamed/part_000`. -/
def CUTOFF_FPS : ℝ := 1

/-- `CUTOFF_MIN_FRAMES` of `src/unnamed/part_000`. -/
def CUTOFF_MIN_FRAMES : ℝ := 10

/-- `CLIP_DISTANCE` of `src/unnamed/part_000`. -/
def CLIP_DISTANCE : ℝ := 100

/-- `ROVER_MIN_SPEED` of `src/unnamed/part_000`. -/
def ROVER_MIN_SPEED : ℝ := 100

/-- `ROVER_MAX_SPEED` of `src/unnamed/part_000`. -/
def ROVER_MAX_SPEED : ℝ := 1000

/-- Source class `Point`: a stationary generator. -/
structure Point where
  location : Vector2
  color : RGB

/-- Source class `Rover` (part_000): a `Point` plus chord data.  `spawn` and
`despawn` are `Option`s because the constructor is called with `null` for both
(`new Rover(new Vector2(0, 0), null, null, …)`). -/
structure Rover where
  location : Vector2
  spawn : Option Vector2
  despawn : Option Vector2
  speed : ℝ
  color : RGB

/-- The per-rover movement block of `GameBoard.loop`
(`src/unnamed/part_000` lines 398–409, identical in
`src/src/routes/index.svelte` lines 144–156 up to `TARGET_FPS`):

  const dTotal = rover.despawn.minus(rover.spawn);
  const angle = Math.atan(dTotal.y / dTotal.x);
  const distanceThisFrame = rover.speed / TARGET_FPS;
  const d = new Vector2(distanceThisFrame * Math.cos(angle),
                        distanceThisFrame * Math.sin(angle));
  rover.location = rover.location.plus(d);

Note the source uses `Math.atan`, not `Math.atan2`.  When `spawn` or
`despawn` is `null` the JS code would throw; that case is unreachable in the
loop (the respawn branch always runs first) and is modelled as the identity. -/
noncomputable def moveRover (targetFPS : ℝ) (rover : Rover) : Rover :=
  match rover.spawn, rover.despawn with
  | some sp, some dp =>
      let dTotal := dp.minus sp
      let angle := Real.arctan (dTotal.y / dTotal.x)
      let distanceThisFrame := rover.speed / targetFPS
      let d : Vector2 := ⟨distanceThisFrame * Real.cos angle,
                          distanceThisFrame * Real.sin angle⟩
      { rover with location := rover.location.plus d }
  | _, _ => rover

/-- The rover of claim C8's end-to-end scenario: `spawn = (-10, 50)`,
`despawn = (110, 50)`, `speed = 100`, location initialised to the spawn. -/
noncomputable def roverC8 : Rover :=
  { location := ⟨-10, 50⟩
    spawn := some ⟨-10, 50⟩
    despawn := some ⟨110, 50⟩
    speed := 100
    color := ⟨0, 0, 0⟩ }

/-- A rover whose chord points in the negative x direction: `spawn = (110, 50)`,
`despawn = (-10, 50)`, `speed = 100`, location at the spawn point.  Used to
exhibit the `atan` quadrant-loss bug of claim C1. -/
noncomputable def roverBackward : Rover :=
  { location := ⟨110, 50⟩
    spawn := some ⟨110, 50⟩
    despawn := some ⟨-10, 50⟩
    speed := 100
    color := ⟨0, 0, 0⟩ }

/-- The random draws consumed by one rover's respawn branch in one tick:
color, speed draw, anchor draws, `Math.sin(angle)` / `Math.cos(angle)`,
and the direction coin. -/
structure Draws where
  color : RGB
  speedU : ℝ
  anchorX : ℝ
  anchorY : ℝ
  sinA : ℝ
  cosA : ℝ
  coin : Bool

/-- The per-tick external input: the `Date.now()` timestamp and the random
draws, indexed by rover position. -/
structure Input where
  nowMs : ℝ
  draws : ℕ → Draws

/-- The `GameBoard` state of `src/unnamed/part_000` (rendering-only fields
omitted; `xmax`/`ymax` are the canvas client size read at construction). -/
structure GameBoard where
  fixedPoints : List Point
  rovers : List Rover
  numRovers : ℕ
  previousFrameTimestampMs : ℝ
  cutoffFramerate : ℝ
  cutoffMinFrames : ℝ
  xmax : ℝ
  ymax : ℝ
  delaunayInput : List ℝ
  numFramesBelowCutoff : ℕ
  stopped : Bool

/-- The constructor loop writing the fixed points into `delaunayInput`
(`src/unnamed/part_000` lines 109–113):

  this.fixedPoints.forEach((point, index) => {
    const offset = 2 * index;
    this.delaunayInput[offset] = point.location.x;
    this.delaunayInput[offset + 1] = point.location.y;
  }); -/
def writeFixed : List Point → List ℝ → ℕ → List ℝ
  | [], buf, _ => buf
  | p :: ps, buf, i =>
      writeFixed ps
        ((buf.set (2 * i) p.location.x).set (2 * i + 1) p.location.y) (i + 1)

/-- The constructor loop writing the rovers into `delaunayInput`
(`src/unnamed/part_000` lines 114–118).  Note the source writes BOTH
coordinates to the same index (`offset + 1` is missing on the second line),
so the second write overwrites the first:

  this.rovers.forEach((rover, index) => {
    const offset = 2 * (index + this.fixedPoints.length);
    this.delaunayInput[offset] = rover.location.x;
    this.delaunayInput[offset] = rover.location.y;
  }); -/
def writeRoversInit (F : ℕ) : List Rover → List ℝ → ℕ → List ℝ
  | [], buf, _ => buf
  | r :: rs, buf, i =>
      writeRoversInit F rs
        ((buf.set (2 * (i + F)) r.location.x).set (2 * (i + F)) r.location.y)
        (i + 1)

/-- The random draws consumed by the `GameBoard` constructor. -/
structure ConstructDraws where
  fixedX : ℕ → ℝ
  fixedY : ℕ → ℝ
  fixedColor : ℕ → RGB
  roverSpeedU : ℕ → ℝ
  roverColor : ℕ → RGB

/-- The `GameBoard` constructor of `src/unnamed/part_000` (lines 70–129,
WebGL shader initialisation omitted): creates `numFixedPoints` stationary
points at random positions, `numRovers` rovers at `(0, 0)` with `null`
spawn/despawn, allocates the zero-filled `delaunayInput` of length
`2 * (|fixedPoints| + |rovers|)` (a `Float64Array`), and fills it with the
two write loops above. -/
noncomputable def construct (width height : ℝ) (numFixedPoints numRovers : ℕ)
    (cutoffFramerate cutoffMinFrames : ℝ) (startMs : ℝ)
    (cd : ConstructDraws) : GameBoard :=
  let fixedPoints := (List.range numFixedPoints).map fun i =>
    Point.mk ⟨cd.fixedX i * width, cd.fixedY i * height⟩ (cd.fixedColor i)
  let rovers := (List.range numRovers).map fun i =>
    Rover.mk ⟨0, 0⟩ none none
      (randomRange ROVER_MIN_SPEED ROVER_MAX_SPEED (cd.roverSpeedU i))
      (cd.roverColor i)
  let buf0 := List.replicate (2 * (fixedPoints.length + rovers.length)) (0 : ℝ)
  let buf1 := writeFixed fixedPoints buf0 0
  let buf2 := writeRoversInit fixedPoints.length rovers buf1 0
  { fixedPoints := fixedPoints
    rovers := rovers
    numRovers := numRovers
    previousFrameTimestampMs := startMs
    cutoffFramerate := cutoffFramerate
    cutoffMinFrames := cutoffMinFrames
    xmax := width
    ymax := height
    delaunayInput := buf2
    numFramesBelowCutoff := 0
    stopped := false }

/-- The respawn-then-move body of the per-rover block in `GameBoard.loop`
(`src/unnamed/part_000` lines 339–409): if the rover has `null` chord data or
its location is beyond the clip distance, give it a fresh color, speed and
chord and put it at the (clamped) spawn point; then advance it along its
chord. -/
noncomputable def perRoverStep (xmax ymax : ℝ) (d : Draws) (r : Rover) :
    Rover :=
  let r1 :=
    if r.spawn = none ∨ r.despawn = none ∨
        r.location.x < 0 - CLIP_DISTANCE ∨ r.location.x > xmax + CLIP_DISTANCE ∨
        r.location.y < 0 - CLIP_DISTANCE ∨ r.location.y > ymax + CLIP_DISTANCE
    then
      let chord := computeChord xmax ymax CLIP_DISTANCE
        ⟨d.anchorX * xmax, d.anchorY * ymax⟩ d.sinA d.cosA d.coin
      { r with
          color := d.color
          speed := randomRange ROVER_MIN_SPEED ROVER_MAX_SPEED d.speedU
          location := ⟨chord.1.x, chord.1.y⟩
          spawn := some chord.1
          despawn := some chord.2 }
    else r
  moveRover TARGET_FPS r1

/-- The `this.rovers.forEach((rover, index) => …)` loop of `GameBoard.loop`
(`src/unnamed/part_000` lines 339–415): respawn and move each rover, then
update `delaunayInput` in place at the rover's stable offset

  const offset = 2 * (this.fixedPoints.length + index);
  this.delaunayInput[offset] = rover.location.x;
  this.delaunayInput[offset + 1] = rover.location.y;

Returns the updated rover list and buffer. -/
noncomputable def tickRovers (xmax ymax : ℝ) (F : ℕ) (draws : ℕ → Draws) :
    List Rover → List ℝ → ℕ → List Rover × List ℝ
  | [], buf, _ => ([], buf)
  | r :: rs, buf, i =>
      let r1 := perRoverStep xmax ymax (draws i) r
      let buf1 := (buf.set (2 * (F + i)) r1.location.x).set
        (2 * (F + i) + 1) r1.location.y
      let res := tickRovers xmax ymax F draws rs buf1 (i + 1)
      (r1 :: res.1, res.2)

/-- The frame-governor prefix of `GameBoard.loop` (`src/unnamed/part_000`
lines 314–331): compute `fps = 1000 / timeElapsedMs` from the stored
previous timestamp, reset the consecutive-low counter when
`fps > cutoffFramerate` and increment it otherwise, and set `stopped` when
the counter exceeds `cutoffMinFrames` (`stopped` is never reset). -/
noncomputable def governorUpdate (s : GameBoard) (nowMs : ℝ) : GameBoard :=
  let timeElapsedMs := nowMs - s.previousFrameTimestampMs
  let fps := 1000 / timeElapsedMs
  let n1 := if fps > s.cutoffFramerate then 0 else s.numFramesBelowCutoff + 1
  { s with
    previousFrameTimestampMs := nowMs
    numFramesBelowCutoff := n1
    stopped := if (n1 : ℝ) > s.cutoffMinFrames then true else s.stopped }

/-- One call of `GameBoard.loop` (`src/unnamed/part_000` lines 313–458,
rendering omitted): run the frame governor, return early when stopped,
otherwise process every rover and the tessellation buffer.  The returned
`Bool` is `true` iff the tick ran to completion, i.e. performed the rover
updates and tessellation (`voronoi.update()`) and re-armed the `setTimeout`
scheduling loop. -/
noncomputable def loopStep (s : GameBoard) (inp : Input) : GameBoard × Bool :=
  let s1 := governorUpdate s inp.nowMs
  if s1.stopped then (s1, false)
  else
    let res := tickRovers s1.xmax s1.ymax s1.fixedPoints.length inp.draws
      s1.rovers s1.delaunayInput 0
    ({ s1 with rovers := res.1, delaunayInput := res.2 }, true)

/-- The state after `n` ticks of `GameBoard.loop` from `s0`, feeding tick
`k` the input `inp k`. -/
noncomputable def run (s0 : GameBoard) (inp : ℕ → Input) : ℕ → GameBoard
  | 0 => s0
  | n + 1 => (loopStep (run s0 inp n) (inp n)).1

/-- The low-fps condition of one tick, stated on the pre-tick board state:
the inter-frame elapsed time is positive and the resulting
`fps = 1000 / timeElapsedMs` is at or below the cutoff (the source resets
the counter exactly when `fps > cutoffFramerate`). -/
def lowTick (s : GameBoard) (inp : Input) : Prop :=
  0 < inp.nowMs - s.previousFrameTimestampMs ∧
  1000 / (inp.nowMs - s.previousFrameTimestampMs) ≤ s.cutoffFramerate

/-- A concrete board used to witness claim C2: no generators, cutoff fps 25,
`cutoffMinFrames = 1`, fresh governor state, initial timestamp 0. -/
noncomputable def boardC2 : GameBoard :=
  { fixedPoints := []
    rovers := []
    numRovers := 0
    previousFrameTimestampMs := 0
    cutoffFramerate := 25
    cutoffMinFrames := 1
    xmax := 1000
    ymax := 1000
    delaunayInput := []
    numFramesBelowCutoff := 0
    stopped := false }

/-- A synthetic timestamp sequence for claim C2's witness: tick `k` fires at
`1000 * (k + 1)` ms, i.e. 1 fps, far below the cutoff of 25. -/
noncomputable def inputC2 : ℕ → Input := fun k =>
  { nowMs := 1000 * ((k : ℝ) + 1)
    draws := fun _ => ⟨⟨0, 0, 0⟩, 0, 0, 0, 0, 0, true⟩ }

end V0

namespace VDyn

/-- `TARGET_FPS` of `src/src/routes/index.svelte` (first script). -/
def TARGET_FPS : ℝ := 30

/-- `CLIP_DISTANCE` of `src/src/routes/index.svelte` (first script). -/
def CLIP_DISTANCE : ℝ := 100

/-- `MAX_ROVERS` of `src/src/routes/index.svelte` (first script): after
`MAX_ROVERS` is exceeded, the first (oldest) rover is removed. -/
def MAX_ROVERS : ℕ := 10

/-- Source class `Point` of the dynamic-lifecycle variant. -/
structure Point where
  location : Vector2
  color : RGB

/-- Source class `Rover` of `src/src/routes/index.svelte` (first script):
always constructed with an actual chord
(`new Rover(new Vector2(spawn.x, spawn.y), spawn, despawn, …)`). -/
structure Rover where
  location : Vector2
  spawn : Vector2
  despawn : Vector2
  speed : ℝ
  color : RGB

/-- The `GameBoard` state of `src/src/routes/index.svelte` (first script).
The canvas size is re-read from the context every tick, so it is a parameter
of `loopStep` rather than a field. -/
structure GameBoard where
  fixedPoints : List Point
  rovers : List Rover
  roverIntervalSeconds : ℝ
  previousFrameTimestampMs : ℝ
  cutoffFramerate : ℝ
  cutoffMinFrames : ℝ
  numFramesBelowCutoff : ℕ
  stopped : Bool

/-- The random draws consumed by the constructor. -/
structure ConstructDraws where
  fixedX : ℕ → ℝ
  fixedY : ℕ → ℝ
  fixedColor : ℕ → RGB

/-- The `GameBoard` constructor of `src/src/routes/index.svelte` (first
script, lines 32–54): stores the configuration, starts with an empty rover
list and `numFixedPoints` random stationary points. -/
noncomputable def construct (width height : ℝ) (numFixedPoints : ℕ)
    (roverIntervalSeconds cutoffFramerate cutoffMinFrames startMs : ℝ)
    (cd : ConstructDraws) : GameBoard :=
  { fixedPoints := (List.range numFixedPoints).map fun i =>
      Point.mk ⟨cd.fixedX i * width, cd.fixedY i * height⟩ (cd.fixedColor i)
    rovers := []
    roverIntervalSeconds := roverIntervalSeconds
    previousFrameTimestampMs := startMs
    cutoffFramerate := cutoffFramerate
    cutoffMinFrames := cutoffMinFrames
    numFramesBelowCutoff := 0
    stopped := false }

/-- The per-tick external input: timestamp plus all random draws a tick can
consume (spawn-probability draw, chord draws, speed draw, color, coin). -/
structure Input where
  nowMs : ℝ
  spawnU : ℝ
  anchorX : ℝ
  anchorY : ℝ
  sinA : ℝ
  cosA : ℝ
  coin : Bool
  speedU : ℝ
  color : RGB

/-- The frame-governor prefix of `GameBoard.loop`
(`src/src/routes/index.svelte` lines 60–83), identical in structure to the
part_000 governor. -/
noncomputable def governorUpdate (s : GameBoard) (nowMs : ℝ) : GameBoard :=
  let timeElapsedMs := nowMs - s.previousFrameTimestampMs
  let fps := 1000 / timeElapsedMs
  let n1 := if fps > s.cutoffFramerate then 0 else s.numFramesBelowCutoff + 1
  { s with
    previousFrameTimestampMs := nowMs
    numFramesBelowCutoff := n1
    stopped := if (n1 : ℝ) > s.cutoffMinFrames then true else s.stopped }

/-- The movement block of the dynamic variant
(`src/src/routes/index.svelte` lines 146–156): same `atan`-based step as
part_000, with `TARGET_FPS = 30`. -/
noncomputable def moveRover (r : Rover) : Rover :=
  let dTotal := r.despawn.minus r.spawn
  let angle := Real.arctan (dTotal.y / dTotal.x)
  let distanceThisFrame := r.speed / TARGET_FPS
  let d : Vector2 := ⟨distanceThisFrame * Real.cos angle,
                      distanceThisFrame * Real.sin angle⟩
  { r with location := r.location.plus d }

/-- The `this.rovers.forEach((rover) => …)` move-and-delete loop of
`src/src/routes/index.svelte` lines 145–166.  JS `forEach` reads the element
at the current index of the live array, and
`this.rovers.splice(this.rovers.indexOf(rover), 1)` removes it in place at
the current index (object identity makes `indexOf` return the index being
visited), so after a removal the iteration index skips the element that
shifted into the removed slot.  The recursion models exactly that index
walk. -/
noncomputable def roverPass (xmax ymax : ℝ) (i : ℕ) (rs : List Rover) :
    List Rover :=
  if h : i < rs.length then
    let r1 := moveRover rs[i]
    if r1.location.x < 0 - CLIP_DISTANCE ∨
        r1.location.x > xmax + CLIP_DISTANCE ∨
        r1.location.y < 0 - CLIP_DISTANCE ∨
        r1.location.y > ymax + CLIP_DISTANCE then
      roverPass xmax ymax (i + 1) ((rs.set i r1).eraseIdx i)
    else
      roverPass xmax ymax (i + 1) (rs.set i r1)
  else rs
termination_by rs.length - i
decreasing_by
  · simp only [List.length_eraseIdx, List.length_set]
    rw [if_pos h]
    omega
  · simp only [List.length_set]
    omega

/-- One call of `GameBoard.loop` of `src/src/routes/index.svelte` (first
script, lines 56–212, rendering omitted): governor, early return when
stopped, prune of the oldest rover when the population exceeds
`MAX_ROVERS` (`splice(0, 1)`), a Bernoulli spawn of at most one new rover
(`Math.random() < 1 / (TARGET_FPS * roverIntervalSeconds)`, speed
`Math.random() * 50 + 50`), then the move-and-delete pass.  The `Bool`
output is `true` iff the tick ran to completion and re-armed the loop. -/
noncomputable def loopStep (xmax ymax : ℝ) (s : GameBoard) (inp : Input) :
    GameBoard × Bool :=
  let s1 := governorUpdate s inp.nowMs
  if s1.stopped then (s1, false)
  else
    let rovers1 := if s1.rovers.length > MAX_ROVERS
      then s1.rovers.eraseIdx 0 else s1.rovers
    let rovers2 :=
      if inp.spawnU < 1 / (TARGET_FPS * s1.roverIntervalSeconds) then
        let chord := computeChord xmax ymax CLIP_DISTANCE
          ⟨inp.anchorX * xmax, inp.anchorY * ymax⟩ inp.sinA inp.cosA inp.coin
        rovers1 ++ [⟨⟨chord.1.x, chord.1.y⟩, chord.1, chord.2,
          inp.speedU * 50 + 50, inp.color⟩]
      else rovers1
    let rovers3 := roverPass xmax ymax 0 rovers2
    ({ s1 with rovers := rovers3 }, true)

/-- The state after `n` ticks of the dynamic-lifecycle board. -/
noncomputable def run (xmax ymax : ℝ) (s0 : GameBoard) (inp : ℕ → Input) :
    ℕ → GameBoard
  | 0 => s0
  | n + 1 => (loopStep xmax ymax (run xmax ymax s0 inp n) (inp n)).1

end VDyn

namespace V1

/-- `TARGET_FPS` of `src/unnamed/part_001`. -/
def TARGET_FPS : ℝ := 60

/-- `CLIP_DISTANCE` of `src/unnamed/part_001`. -/
def CLIP_DISTANCE : ℝ := 10

/-- Source class `Rover` of `src/unnamed/part_001`: chord data plus the
one-way `hasEnteredScreen` flag (initially `false`; set in the loop). -/
structure Rover where
  location : Vector2
  spawn : Vector2
  despawn : Vector2
  speed : ℝ
  color : RGB
  hasEnteredScreen : Bool

/-- The movement block of `src/unnamed/part_001` lines 124–135: the same
`atan`-based step, with `TARGET_FPS = 60`. -/
noncomputable def moveRover (r : Rover) : Rover :=
  let dTotal := r.despawn.minus r.spawn
  let angle := Real.arctan (dTotal.y / dTotal.x)
  let distanceThisFrame := r.speed / TARGET_FPS
  let d : Vector2 := ⟨distanceThisFrame * Real.cos angle,
                      distanceThisFrame * Real.sin angle⟩
  { r with location := r.location.plus d }

/-- The `this.rovers.forEach((rover) => …)` loop of `src/unnamed/part_001`
lines 124–154: move the rover; if it has not yet entered the screen, set
`hasEnteredScreen` when its raw location is strictly inside
`(0, xmax) × (0, ymax)`; otherwise delete it
(`this.rovers.splice(this.rovers.indexOf(rover), 1)`) when it is beyond the
clip margin.  As in the dynamic variant, a `splice` during `forEach`
shifts the array so the iteration skips the element that moved into the
removed slot; the recursion models exactly that index walk. -/
noncomputable def roverPass (xmax ymax : ℝ) (i : ℕ) (rs : List Rover) :
    List Rover :=
  if h : i < rs.length then
    let r1 := moveRover rs[i]
    if r1.hasEnteredScreen = false then
      let r2 := if r1.location.x > 0 ∧ r1.location.x < xmax ∧
          r1.location.y > 0 ∧ r1.location.y < ymax
        then { r1 with hasEnteredScreen := true } else r1
      roverPass xmax ymax (i + 1) (rs.set i r2)
    else if r1.location.x < 0 - CLIP_DISTANCE ∨
        r1.location.x > xmax + CLIP_DISTANCE ∨
        r1.location.y < 0 - CLIP_DISTANCE ∨
        r1.location.y > ymax + CLIP_DISTANCE then
      roverPass xmax ymax (i + 1) ((rs.set i r1).eraseIdx i)
    else
      roverPass xmax ymax (i + 1) (rs.set i r1)
  else rs
termination_by rs.length - i
decreasing_by
  · simp only [List.length_set]
    omega
  · simp only [List.length_eraseIdx, List.length_set]
    rw [if_pos h]
    omega
  · simp only [List.length_set]
    omega

/-- First rover of claim C7's failing input: `hasEnteredScreen = true`,
located at `(5000, 50)` — far beyond the clip margin of a `1000 × 1000`
arena — with a chord pointing in the positive x direction, so one tick
moves it to `(5001, 50)`, still beyond the margin. -/
noncomputable def roverA7 : Rover :=
  { location := ⟨5000, 50⟩
    spawn := ⟨0, 0⟩
    despawn := ⟨100, 0⟩
    speed := 60
    color := ⟨0, 0, 0⟩
    hasEnteredScreen := true }

/-- Second rover of claim C7's failing input: `hasEnteredScreen = true` and
located at `(6000, 60)`, beyond the clip margin. -/
noncomputable def roverB7 : Rover :=
  { location := ⟨6000, 60⟩
    spawn := ⟨0, 0⟩
    despawn := ⟨100, 0⟩
    speed := 60
    color := ⟨0, 0, 0⟩
    hasEnteredScreen := true }

end V1

namespace JS

/-- An exact model of the JS (IEEE double) values that the chord computation
can produce from rational inputs: `NaN`, the two infinities, or a finite
rational.  Rounding never occurs in the modelled operations at the inputs of
interest; zero is modelled as `+0`. -/
inductive JSNum where
  | nan : JSNum
  | inf : Bool → JSNum
  | num : ℚ → JSNum
deriving DecidableEq

namespace JSNum

/-- JS unary minus. -/
def neg : JSNum → JSNum
  | nan => nan
  | inf s => inf (!s)
  | num q => num (-q)

/-- JS addition. -/
def add : JSNum → JSNum → JSNum
  | nan, _ => nan
  | _, nan => nan
  | inf s, inf t => if s = t then inf s else nan
  | inf s, num _ => inf s
  | num _, inf t => inf t
  | num a, num b => num (a + b)

/-- JS subtraction. -/
def sub : JSNum → JSNum → JSNum
  | nan, _ => nan
  | _, nan => nan
  | inf s, inf t => if s = t then nan else inf s
  | inf s, num _ => inf s
  | num _, inf t => inf (!t)
  | num a, num b => num (a - b)

/-- JS multiplication. -/
def mul : JSNum → JSNum → JSNum
  | nan, _ => nan
  | _, nan => nan
  | inf s, inf t => inf (s == t)
  | inf s, num b => if b = 0 then nan else if 0 < b then inf s else inf (!s)
  | num a, inf t => if a = 0 then nan else if 0 < a then inf t else inf (!t)
  | num a, num b => num (a * b)

/-- JS division; a nonzero finite value divided by `+0` gives a same-signed
infinity, `0 / 0` gives `NaN`. -/
def div : JSNum → JSNum → JSNum
  | nan, _ => nan
  | _, nan => nan
  | inf _, inf _ => nan
  | inf s, num b => if 0 ≤ b then inf s else inf (!s)
  | num _, inf _ => num 0
  | num a, num b =>
      if b = 0 then
        if a = 0 then nan else if 0 < a then inf true else inf false
      else num (a / b)

/-- JS `Math.max` (restricted to two arguments). -/
def jsMax : JSNum → JSNum → JSNum
  | nan, _ => nan
  | _, nan => nan
  | inf true, _ => inf true
  | _, inf true => inf true
  | inf false, b => b
  | a, inf false => a
  | num a, num b => num (max a b)

/-- JS `Math.min` (restricted to two arguments). -/
def jsMin : JSNum → JSNum → JSNum
  | nan, _ => nan
  | _, nan => nan
  | inf false, _ => inf false
  | _, inf false => inf false
  | inf true, b => b
  | a, inf true => a
  | num a, num b => num (min a b)

/-- The ordering realised by the sort comparator `(a, b) => a.x - b.x` on
`NaN`-free values (the behaviour on `NaN` comparands is unspecified in JS
and unused here). -/
def leB : JSNum → JSNum → Bool
  | nan, _ => true
  | _, nan => true
  | inf false, _ => true
  | _, inf false => false
  | inf true, inf true => true
  | num _, inf true => true
  | inf true, num _ => false
  | num a, num b => decide (a ≤ b)

end JSNum

/-- A 2D point with exact JS-number coordinates. -/
structure Vec where
  x : JSNum
  y : JSNum
deriving DecidableEq

/-- One insertion step of the sort by x-coordinate. -/
def insertV (v : Vec) : List Vec → List Vec
  | [] => [v]
  | w :: ws => if JSNum.leB v.x w.x then v :: w :: ws else w :: insertV v ws

/-- `pointsOfInterest.sort((a, b) => a.x - b.x)` on `NaN`-free inputs. -/
def sortByX : List Vec → List Vec
  | [] => []
  | v :: vs => insertV v (sortByX vs)

/-- The chord computation of the spawn block
(`src/src/routes/index.svelte` lines 101–131) over exact JS numbers:
slope `m = sinA / cosA`, intercept, the four boundary intersections
(division by a zero slope produces infinities exactly as in JS), the sort by
x, the direction coin, and the clamp of the spawn point only. -/
def computeChordJS (xmax ymax clip ax ay sinA cosA : JSNum) (coin : Bool) :
    Vec × Vec :=
  let m := JSNum.div sinA cosA
  let b := JSNum.sub ay (JSNum.mul m ax)
  let xUp := JSNum.div (JSNum.neg b) m
  let xDown := JSNum.div (JSNum.sub ymax b) m
  let yLeft := b
  let yRight := JSNum.add (JSNum.mul m xmax) b
  let pointsOfInterest : List Vec :=
    [⟨xUp, JSNum.num 0⟩, ⟨xDown, ymax⟩, ⟨JSNum.num 0, yLeft⟩, ⟨xmax, yRight⟩]
  let sorted := sortByX pointsOfInterest
  let first := sorted.headD ⟨JSNum.num 0, JSNum.num 0⟩
  let last := sorted.getLastD ⟨JSNum.num 0, JSNum.num 0⟩
  let sp := if coin then first else last
  let dp := if coin then last else first
  let sx := JSNum.jsMin (JSNum.jsMax sp.x (JSNum.sub (JSNum.num 0) clip))
    (JSNum.add xmax clip)
  let sy := JSNum.jsMin (JSNum.jsMax sp.y (JSNum.sub (JSNum.num 0) clip))
    (JSNum.add ymax clip)
  (⟨sx, sy⟩, dp)

/-- The rover state written by the spawn block: `new Rover(new
Vector2(spawn.x, spawn.y), spawn, despawn, …)` (speed and color omitted —
they are finite draws). -/
structure Rover where
  location : Vec
  spawn : Vec
  despawn : Vec
deriving DecidableEq

/-- The rover pushed by the spawn block, as a function of the chord
inputs. -/
def spawnRover (xmax ymax clip ax ay sinA cosA : JSNum) (coin : Bool) :
    Rover :=
  let chord := computeChordJS xmax ymax clip ax ay sinA cosA coin
  ⟨⟨chord.1.x, chord.1.y⟩, chord.1, chord.2⟩

end JS

namespace V0

/-- Constant draws used in claim C6's concrete construction. -/
noncomputable def cdC6 : ConstructDraws :=
  { fixedX := fun _ => 0
    fixedY := fun _ => 0
    fixedColor := fun _ => ⟨0, 0, 0⟩
    roverSpeedU := fun _ => 0
    roverColor := fun _ => ⟨0, 0, 0⟩ }

/-- The tessellation-buffer alignment invariant of claim C3: the buffer has
length exactly `2 * (|fixedPoints| + |rovers|)`, fixed point `i` has its
coordinates at indices `2i` and `2i + 1`, and rover `j` has its coordinates
at indices `2(|fixedPoints| + j)` and `2(|fixedPoints| + j) + 1`. -/
def bufferAligned (s : GameBoard) : Prop :=
  s.delaunayInput.length = 2 * (s.fixedPoints.length + s.rovers.length) ∧
  (∀ i p, s.fixedPoints.get? i = some p →
    s.delaunayInput.get? (2 * i) = some p.location.x ∧
    s.delaunayInput.get? (2 * i + 1) = some p.location.y) ∧
  (∀ j r, s.rovers.get? j = some r →
    s.delaunayInput.get? (2 * (s.fixedPoints.length + j)) =
      some r.location.x ∧
    s.delaunayInput.get? (2 * (s.fixedPoints.length + j) + 1) =
      some r.location.y)

end V0

/-- C8: a rover with `spawn = (-10, 50)`, `despawn = (110, 50)`, `speed = 100`
and `targetFPS = 10` whose location is the spawn point moves to `(0, 50)` after
one application of the movement step (exactly, in the real-number model). -/
theorem claim_C8_one_tick_moves_to_origin :
    (V0.moveRover 10 V0.roverC8).location = ⟨0, 50⟩ := by
  simp only [V0.moveRover, V0.roverC8, Vector2.minus, Vector2.plus]
  norm_num [Real.arctan_zero, Real.cos_zero, Real.sin_zero]

/-- C1 (failing input): the movement step is NOT direction-preserving.  For a
rover with `spawn = (110, 50)`, `despawn = (-10, 50)` the spawn-to-despawn
direction is the negative x direction (`atan2` gives angle `π`), but the code
computes `angle = atan(0 / -120) = 0` and moves the rover to `(120, 50)`,
i.e. with unit step vector `(1, 0)` — exactly backwards. -/
theorem claim_C1_atan_moves_rover_backward :
    (V0.moveRover 10 V0.roverBackward).location = ⟨120, 50⟩ ∧
      V0.roverBackward.despawn = some ⟨-10, 50⟩ ∧
      V0.roverBackward.location.x = 110 := by
  refine ⟨?_, rfl, rfl⟩
  simp only [V0.moveRover, V0.roverBackward, Vector2.minus, Vector2.plus]
  norm_num [Real.arctan_zero, Real.cos_zero, Real.sin_zero]

theorem get?_replicate {α : Type} (a : α) (n k : ℕ) :
    (List.replicate n a).get? k = if k < n then some a else none := by
  induction n generalizing k with
  | zero => simp
  | succ n ih =>
    cases k with
    | zero => simp [List.replicate]
    | succ k => simpa [List.replicate] using ih k

namespace V0

theorem writeFixed_length (ps : List Point) (buf : List ℝ) (i : ℕ) :
    (writeFixed ps buf i).length = buf.length := by
  induction ps generalizing buf i with
  | nil => rfl
  | cons p ps ih => simp [writeFixed, ih]

theorem writeFixed_get?_untouched (ps : List Point) (buf : List ℝ) (i k : ℕ)
    (hk : k < 2 * i ∨ 2 * (i + ps.length) ≤ k) :
    (writeFixed ps buf i).get? k = buf.get? k := by
  induction ps generalizing buf i with
  | nil => rfl
  | cons p ps ih =>
    simp only [List.length_cons] at hk
    rw [writeFixed, ih _ (i + 1) (by omega),
      List.get?_set_ne _ _ (by omega), List.get?_set_ne _ _ (by omega)]

theorem writeFixed_get?_spec (ps : List Point) (buf : List ℝ) (i : ℕ)
    (hlen : 2 * (i + ps.length) ≤ buf.length) :
    ∀ j p, ps.get? j = some p →
      (writeFixed ps buf i).get? (2 * (i + j)) = some p.location.x ∧
      (writeFixed ps buf i).get? (2 * (i + j) + 1) = some p.location.y := by
  induction ps generalizing buf i with
  | nil => intro j p hj; simp at hj
  | cons q ps ih =>
    simp only [List.length_cons] at hlen
    intro j p hj
    cases j with
    | zero =>
      simp only [List.get?_cons_zero, Option.some.injEq] at hj
      subst hj
      simp only [Nat.add_zero]
      constructor
      · rw [writeFixed, writeFixed_get?_untouched _ _ _ _ (Or.inl (by omega)),
          List.get?_set_ne _ _ (by omega),
          List.get?_set_eq_of_lt _ (by omega)]
      · rw [writeFixed, writeFixed_get?_untouched _ _ _ _ (Or.inl (by omega)),
          List.get?_set_eq_of_lt _ (by simp only [List.length_set]; omega)]
    | succ j =>
      simp only [List.get?_cons_succ] at hj
      have h2 : 2 * (i + (j + 1)) = 2 * ((i + 1) + j) := by omega
      constructor
      · rw [writeFixed, h2]
        exact (ih _ (i + 1) (by simp only [List.length_set]; omega) j p hj).1
      · rw [writeFixed, h2]
        exact (ih _ (i + 1) (by simp only [List.length_set]; omega) j p hj).2

theorem writeRoversInit_length (F : ℕ) (rs : List Rover) (buf : List ℝ)
    (i : ℕ) : (writeRoversInit F rs buf i).length = buf.length := by
  induction rs generalizing buf i with
  | nil => rfl
  | cons r rs ih => simp [writeRoversInit, ih]

theorem writeRoversInit_get?_untouched (F : ℕ) (rs : List Rover)
    (buf : List ℝ) (i k : ℕ)
    (hk : ∀ j, i ≤ j → j < i + rs.length → k ≠ 2 * (j + F)) :
    (writeRoversInit F rs buf i).get? k = buf.get? k := by
  induction rs generalizing buf i with
  | nil => rfl
  | cons r rs ih =>
    simp only [List.length_cons] at hk
    have hcur : k ≠ 2 * (i + F) := hk i (le_refl i) (by omega)
    rw [writeRoversInit,
      ih _ (i + 1) (fun j h1 h2 => hk j (by omega) (by omega)),
      List.get?_set_ne _ _ (Ne.symm hcur), List.get?_set_ne _ _ (Ne.symm hcur)]

theorem writeRoversInit_get?_spec (F : ℕ) (rs : List Rover) (buf : List ℝ)
    (i : ℕ) (hlen : 2 * ((i + rs.length) + F) ≤ buf.length) :
    ∀ j r, rs.get? j = some r →
      (writeRoversInit F rs buf i).get? (2 * ((i + j) + F)) =
        some r.location.y := by
  induction rs generalizing buf i with
  | nil => intro j r hj; simp at hj
  | cons q rs ih =>
    simp only [List.length_cons] at hlen
    intro j r hj
    cases j with
    | zero =>
      simp only [List.get?_cons_zero, Option.some.injEq] at hj
      subst hj
      simp only [Nat.add_zero]
      rw [writeRoversInit,
        writeRoversInit_get?_untouched _ _ _ _ _
          (fun j h1 h2 => by omega),
        List.get?_set_eq_of_lt _ (by simp only [List.length_set]; omega)]
    | succ j =>
      simp only [List.get?_cons_succ] at hj
      have h2 : 2 * ((i + (j + 1)) + F) = 2 * (((i + 1) + j) + F) := by omega
      rw [writeRoversInit, h2]
      exact ih _ (i + 1) (by simp only [List.length_set]; omega) j r hj

theorem tickRovers_fst_length (xmax ymax : ℝ) (F : ℕ) (draws : ℕ → Draws)
    (rs : List Rover) (buf : List ℝ) (i : ℕ) :
    (tickRovers xmax ymax F draws rs buf i).1.length = rs.length := by
  induction rs generalizing buf i with
  | nil => rfl
  | cons r rs ih => simp [tickRovers, ih]

theorem tickRovers_snd_length (xmax ymax : ℝ) (F : ℕ) (draws : ℕ → Draws)
    (rs : List Rover) (buf : List ℝ) (i : ℕ) :
    (tickRovers xmax ymax F draws rs buf i).2.length = buf.length := by
  induction rs generalizing buf i with
  | nil => rfl
  | cons r rs ih => simp [tickRovers, ih]

theorem tickRovers_fst_get? (xmax ymax : ℝ) (F : ℕ) (draws : ℕ → Draws)
    (rs : List Rover) (buf : List ℝ) (i j : ℕ) :
    (tickRovers xmax ymax F draws rs buf i).1.get? j =
      (rs.get? j).map (fun r => perRoverStep xmax ymax (draws (i + j)) r) := by
  induction rs generalizing buf i j with
  | nil => simp [tickRovers]
  | cons r rs ih =>
    cases j with
    | zero => simp [tickRovers]
    | succ j =>
      have h2 : i + (j + 1) = (i + 1) + j := by omega
      simp only [tickRovers, List.get?_cons_succ, h2]
      exact ih _ (i + 1) j

theorem tickRovers_snd_untouched (xmax ymax : ℝ) (F : ℕ) (draws : ℕ → Draws)
    (rs : List Rover) (buf : List ℝ) (i k : ℕ) (hk : k < 2 * (F + i)) :
    (tickRovers xmax ymax F draws rs buf i).2.get? k = buf.get? k := by
  induction rs generalizing buf i with
  | nil => rfl
  | cons r rs ih =>
    simp only [tickRovers]
    rw [ih _ (i + 1) (by omega),
      List.get?_set_ne _ _ (by omega), List.get?_set_ne _ _ (by omega)]

set_option linter.unusedTactic false in
theorem tickRovers_snd_spec (xmax ymax : ℝ) (F : ℕ) (draws : ℕ → Draws)
    (rs : List Rover) (buf : List ℝ) (i : ℕ)
    (hlen : 2 * (F + i + rs.length) ≤ buf.length) :
    ∀ j r, rs.get? j = some r →
      (tickRovers xmax ymax F draws rs buf i).2.get? (2 * (F + (i + j))) =
        some ((perRoverStep xmax ymax (draws (i + j)) r).location.x) ∧
      (tickRovers xmax ymax F draws rs buf i).2.get? (2 * (F + (i + j)) + 1) =
        some ((perRoverStep xmax ymax (draws (i + j)) r).location.y) := by
  induction rs generalizing buf i with
  | nil => intro j r hj; simp at hj
  | cons q rs ih =>
    simp only [List.length_cons] at hlen
    intro j r hj
    cases j with
    | zero =>
      simp only [List.get?_cons_zero, Option.some.injEq] at hj
      subst hj
      simp only [Nat.add_zero, tickRovers]
      constructor
      · rw [tickRovers_snd_untouched, List.get?_set_ne, List.get?_set_eq_of_lt]
          <;> omega
      · rw [tickRovers_snd_untouched, List.get?_set_eq_of_lt]
          <;> first
            | omega
            | (simp only [List.length_set]; omega)
    | succ j =>
      simp only [List.get?_cons_succ] at hj
      have h2 : 2 * (F + (i + (j + 1))) = 2 * (F + ((i + 1) + j)) := by omega
      have h3 : i + (j + 1) = (i + 1) + j := by omega
      simp only [tickRovers, h2, h3]
      exact ih _ (i + 1) (by simp only [List.length_set]; omega) j r hj

theorem construct_bufferAligned (width height : ℝ) (nF nR : ℕ)
    (cf cmf startMs : ℝ) (cd : ConstructDraws) :
    bufferAligned (construct width height nF nR cf cmf startMs cd) := by
  unfold construct bufferAligned
  simp only
  set fixedPoints := (List.range nF).map fun i =>
    Point.mk ⟨cd.fixedX i * width, cd.fixedY i * height⟩ (cd.fixedColor i)
    with hfp
  set rovers := (List.range nR).map fun i =>
    Rover.mk ⟨0, 0⟩ none none
      (randomRange ROVER_MIN_SPEED ROVER_MAX_SPEED (cd.roverSpeedU i))
      (cd.roverColor i) with hrv
  have hFlen : fixedPoints.length = nF := by simp [hfp]
  have hRlen : rovers.length = nR := by simp [hrv]
  have hbuf0 : (List.replicate (2 * (fixedPoints.length + rovers.length))
      (0 : ℝ)).length = 2 * (nF + nR) := by simp [hFlen, hRlen]
  refine ⟨?_, ?_, ?_⟩
  · rw [writeRoversInit_length, writeFixed_length]
    simp [hFlen, hRlen]
  · intro i p hp
    have hiF : i < nF := by
      rcases List.get?_eq_some.mp hp with ⟨hb, _⟩
      omega
    constructor
    · rw [writeRoversInit_get?_untouched _ _ _ _ _ (fun j h1 h2 => by omega),
        show 2 * i = 2 * (0 + i) by omega]
      exact (writeFixed_get?_spec fixedPoints _ 0
        (by rw [List.length_replicate]; omega) i p hp).1
    · rw [writeRoversInit_get?_untouched _ _ _ _ _ (fun j h1 h2 => by omega),
        show 2 * i + 1 = 2 * (0 + i) + 1 by omega]
      exact (writeFixed_get?_spec fixedPoints _ 0
        (by rw [List.length_replicate]; omega) i p hp).2
  · intro j r hr
    have hjR : j < nR := by
      rcases List.get?_eq_some.mp hr with ⟨hb, _⟩
      omega
    have hval : r.location = ⟨0, 0⟩ := by
      rw [hrv, List.get?_map, List.get?_range hjR] at hr
      simp only [Option.map_some', Option.some.injEq] at hr
      subst hr
      rfl
    constructor
    · rw [show 2 * (fixedPoints.length + j) =
          2 * ((0 + j) + fixedPoints.length) by omega,
        writeRoversInit_get?_spec fixedPoints.length rovers _ 0
          (by rw [writeFixed_length, List.length_replicate]; omega) j r hr,
        hval]
    · rw [writeRoversInit_get?_untouched _ _ _ _ _ (fun j' h1 h2 => by omega),
        writeFixed_get?_untouched _ _ _ _ (Or.inr (by omega)),
        get?_replicate, if_pos (by omega), hval]

theorem tickRovers_preserves_aligned (s : GameBoard) (draws : ℕ → Draws)
    (hs : bufferAligned s) (t : GameBoard)
    (hf : t.fixedPoints = s.fixedPoints)
    (hr : t.rovers = (tickRovers s.xmax s.ymax s.fixedPoints.length draws
      s.rovers s.delaunayInput 0).1)
    (hd : t.delaunayInput = (tickRovers s.xmax s.ymax s.fixedPoints.length
      draws s.rovers s.delaunayInput 0).2) :
    bufferAligned t := by
  obtain ⟨hlen, hfix, hrov⟩ := hs
  refine ⟨?_, ?_, ?_⟩
  · rw [hd, hf, hr, tickRovers_snd_length, tickRovers_fst_length, hlen]
  · intro i p hp
    rw [hf] at hp
    have hiF : i < s.fixedPoints.length := by
      rcases List.get?_eq_some.mp hp with ⟨hb, _⟩
      exact hb
    rw [hd]
    constructor
    · rw [tickRovers_snd_untouched]
      · exact (hfix i p hp).1
      · omega
    · rw [tickRovers_snd_untouched]
      · exact (hfix i p hp).2
      · omega
  · intro j r1 hr1
    rw [hr, tickRovers_fst_get?] at hr1
    rw [hd, hf]
    cases hrs : s.rovers.get? j with
    | none => rw [hrs] at hr1; simp at hr1
    | some r =>
      rw [hrs] at hr1
      simp only [Option.map_some', Option.some.injEq] at hr1
      subst hr1
      have hspec := tickRovers_snd_spec s.xmax s.ymax s.fixedPoints.length
        draws s.rovers s.delaunayInput 0 (by omega) j r hrs
      simp only [Nat.zero_add] at hspec ⊢
      exact hspec

theorem governorUpdate_bufferAligned (s : GameBoard) (nowMs : ℝ)
    (hs : bufferAligned s) : bufferAligned (governorUpdate s nowMs) :=
  hs

theorem loopStep_preserves_bufferAligned (s : GameBoard) (inp : Input)
    (hs : bufferAligned s) : bufferAligned (loopStep s inp).1 := by
  unfold loopStep
  simp only
  split
  · exact governorUpdate_bufferAligned s inp.nowMs hs
  · exact tickRovers_preserves_aligned (governorUpdate s inp.nowMs) inp.draws
      (governorUpdate_bufferAligned s inp.nowMs hs) _ rfl rfl rfl

/-- C3: at every point of a run — after construction and after every tick —
the tessellation input buffer `delaunayInput` has length exactly
`2 * (|fixedPoints| + |rovers|)`, and every generator's coordinates sit at
their stable offsets: fixed point `i` at indices `2i` and `2i + 1`, rover
`j` at indices `2(|fixedPoints| + j)` and `2(|fixedPoints| + j) + 1`.
(After construction this holds even though the constructor erroneously
writes both rover coordinates to the same index, because every rover is
created at location `(0, 0)` and the `Float64Array` is zero-initialised.) -/
theorem claim_C3_buffer_invariant (width height : ℝ) (nF nR : ℕ)
    (cf cmf startMs : ℝ) (cd : ConstructDraws) (inp : ℕ → Input) (n : ℕ) :
    bufferAligned (run (construct width height nF nR cf cmf startMs cd) inp n) := by
  induction n with
  | zero => exact construct_bufferAligned width height nF nR cf cmf startMs cd
  | succ n ih => exact loopStep_preserves_bufferAligned _ _ ih

theorem governorUpdate_prevTs (s : GameBoard) (nowMs : ℝ) :
    (governorUpdate s nowMs).previousFrameTimestampMs = nowMs := rfl

theorem governorUpdate_cutoffFramerate (s : GameBoard) (nowMs : ℝ) :
    (governorUpdate s nowMs).cutoffFramerate = s.cutoffFramerate := rfl

theorem governorUpdate_cutoffMinFrames (s : GameBoard) (nowMs : ℝ) :
    (governorUpdate s nowMs).cutoffMinFrames = s.cutoffMinFrames := rfl

theorem governorUpdate_low (s : GameBoard) (nowMs : ℝ)
    (hl : ¬ (1000 / (nowMs - s.previousFrameTimestampMs) >
      s.cutoffFramerate)) :
    (governorUpdate s nowMs).numFramesBelowCutoff =
      s.numFramesBelowCutoff + 1 ∧
    (governorUpdate s nowMs).stopped =
      (if ((s.numFramesBelowCutoff + 1 : ℕ) : ℝ) > s.cutoffMinFrames
        then true else s.stopped) := by
  constructor
  · simp only [governorUpdate, if_neg hl]
  · simp only [governorUpdate, if_neg hl]

theorem governorUpdate_stopped_mono (s : GameBoard) (nowMs : ℝ)
    (h : s.stopped = true) : (governorUpdate s nowMs).stopped = true := by
  simp only [governorUpdate]
  split <;> split <;> first | rfl | exact h

theorem loopStep_prevTs (s : GameBoard) (inp : Input) :
    (loopStep s inp).1.previousFrameTimestampMs = inp.nowMs := by
  unfold loopStep
  simp only
  split
  · exact governorUpdate_prevTs s inp.nowMs
  · exact governorUpdate_prevTs s inp.nowMs

theorem loopStep_cutoffFramerate (s : GameBoard) (inp : Input) :
    (loopStep s inp).1.cutoffFramerate = s.cutoffFramerate := by
  unfold loopStep
  simp only
  split
  · exact governorUpdate_cutoffFramerate s inp.nowMs
  · exact governorUpdate_cutoffFramerate s inp.nowMs

theorem loopStep_cutoffMinFrames (s : GameBoard) (inp : Input) :
    (loopStep s inp).1.cutoffMinFrames = s.cutoffMinFrames := by
  unfold loopStep
  simp only
  split
  · exact governorUpdate_cutoffMinFrames s inp.nowMs
  · exact governorUpdate_cutoffMinFrames s inp.nowMs

theorem run_cutoffMinFrames (s0 : GameBoard) (inp : ℕ → Input) (k : ℕ) :
    (run s0 inp k).cutoffMinFrames = s0.cutoffMinFrames := by
  induction k with
  | zero => rfl
  | succ k ih => rw [show run s0 inp (k + 1) =
      (loopStep (run s0 inp k) (inp k)).1 from rfl, loopStep_cutoffMinFrames, ih]

theorem loopStep_low_counter (s : GameBoard) (inp : Input)
    (hlow : lowTick s inp) :
    (loopStep s inp).1.numFramesBelowCutoff = s.numFramesBelowCutoff + 1 ∧
    (loopStep s inp).1.stopped =
      (if ((s.numFramesBelowCutoff + 1 : ℕ) : ℝ) > s.cutoffMinFrames
        then true else s.stopped) := by
  have hn : ¬ (1000 / (inp.nowMs - s.previousFrameTimestampMs) >
      s.cutoffFramerate) := not_lt.mpr hlow.2
  have hg := governorUpdate_low s inp.nowMs hn
  unfold loopStep
  simp only
  split
  · exact hg
  · exact hg

theorem loopStep_stopped_absorb (s : GameBoard) (inp : Input)
    (h : s.stopped = true) :
    (loopStep s inp).1.stopped = true ∧ (loopStep s inp).2 = false ∧
    (loopStep s inp).1.rovers = s.rovers ∧
    (loopStep s inp).1.delaunayInput = s.delaunayInput := by
  have hg : (governorUpdate s inp.nowMs).stopped = true :=
    governorUpdate_stopped_mono s inp.nowMs h
  unfold loopStep
  simp only
  rw [if_pos hg]
  exact ⟨hg, rfl, rfl, rfl⟩

theorem loopStep_stopping_tick (s : GameBoard) (inp : Input)
    (hg : (governorUpdate s inp.nowMs).stopped = true) :
    (loopStep s inp).2 = false ∧
    (loopStep s inp).1.rovers = s.rovers ∧
    (loopStep s inp).1.delaunayInput = s.delaunayInput ∧
    (loopStep s inp).1.stopped = true := by
  unfold loopStep
  simp only
  rw [if_pos hg]
  exact ⟨rfl, rfl, rfl, hg⟩

theorem run_low_counts (s0 : GameBoard) (inp : ℕ → Input) (N : ℕ)
    (hc0 : s0.numFramesBelowCutoff = 0) (hst : s0.stopped = false)
    (hcm : s0.cutoffMinFrames = (N : ℝ))
    (hlow : ∀ k, k < N + 1 → lowTick (run s0 inp k) (inp k)) :
    ∀ k, k ≤ N + 1 → (run s0 inp k).numFramesBelowCutoff = k ∧
      ((run s0 inp k).stopped = true ↔ k = N + 1) := by
  intro k
  induction k with
  | zero =>
    intro _
    refine ⟨hc0, ?_⟩
    show s0.stopped = true ↔ 0 = N + 1
    rw [hst]
    constructor
    · intro h
      exact absurd h (by simp)
    · intro h
      omega
  | succ k ih =>
    intro hk
    obtain ⟨ihc, ihs⟩ := ih (by omega)
    have hkstop : (run s0 inp k).stopped = false := by
      cases hb : (run s0 inp k).stopped
      · rfl
      · exact absurd (ihs.mp hb) (by omega)
    have hl := hlow k (by omega)
    have hstep := loopStep_low_counter (run s0 inp k) (inp k) hl
    constructor
    · show (loopStep (run s0 inp k) (inp k)).1.numFramesBelowCutoff = k + 1
      rw [hstep.1, ihc]
    · show (loopStep (run s0 inp k) (inp k)).1.stopped = true ↔ k + 1 = N + 1
      rw [hstep.2, ihc, run_cutoffMinFrames, hcm, hkstop]
      by_cases hgt : ((k + 1 : ℕ) : ℝ) > (N : ℝ)
      · rw [if_pos hgt]
        have hlt : N < k + 1 := by exact_mod_cast hgt
        exact ⟨fun _ => by omega, fun _ => rfl⟩
      · rw [if_neg hgt]
        have hnlt : ¬ N < k + 1 := fun h => hgt (by exact_mod_cast h)
        exact ⟨fun h => by simp at h, fun h => absurd (by omega : N < k + 1) hnlt⟩

/-- C2: for every timestamp sequence making `fps ≤ cutoffFramerate` hold on
`cutoffMinFrames + 1` consecutive ticks from a fresh governor state
(`cutoffMinFrames = N`), the board is not stopped on ticks `1 … N`, becomes
stopped on the `(N+1)`-th low tick, and from that tick on — regardless of
later fps values — every call of `loop` leaves it stopped, performs no rover
updates and no tessellation-buffer writes, and does not re-arm the
scheduling loop (the step's `Bool` output is `false`). -/
theorem claim_C2_frame_governor (s0 : GameBoard) (inp : ℕ → Input) (N : ℕ)
    (hc0 : s0.numFramesBelowCutoff = 0) (hst : s0.stopped = false)
    (hcm : s0.cutoffMinFrames = (N : ℝ))
    (hlow : ∀ k, k < N + 1 → lowTick (run s0 inp k) (inp k)) :
    (∀ k, k ≤ N → (run s0 inp k).stopped = false) ∧
    (run s0 inp (N + 1)).stopped = true ∧
    (∀ m, N ≤ m →
      (loopStep (run s0 inp m) (inp m)).2 = false ∧
      (run s0 inp (m + 1)).stopped = true ∧
      (run s0 inp (m + 1)).rovers = (run s0 inp N).rovers ∧
      (run s0 inp (m + 1)).delaunayInput = (run s0 inp N).delaunayInput) := by
  have hcounts := run_low_counts s0 inp N hc0 hst hcm hlow
  have hnot : ∀ k, k ≤ N → (run s0 inp k).stopped = false := by
    intro k hkN
    cases hb : (run s0 inp k).stopped
    · rfl
    · exact absurd ((hcounts k (by omega)).2.mp hb) (by omega)
  have hstopN1 : (run s0 inp (N + 1)).stopped = true :=
    (hcounts (N + 1) (le_refl _)).2.mpr rfl
  refine ⟨hnot, hstopN1, ?_⟩
  intro m hm
  induction m, hm using Nat.le_induction with
  | base =>
    have hg : (governorUpdate (run s0 inp N) ((inp N).nowMs)).stopped = true := by
      by_contra h
      have hfalse : (run s0 inp (N + 1)).stopped = false := by
        show (loopStep (run s0 inp N) (inp N)).1.stopped = false
        unfold loopStep
        simp only
        rw [if_neg h]
        exact Bool.eq_false_iff.mpr h
      rw [hstopN1] at hfalse
      exact absurd hfalse (by simp)
    have ht := loopStep_stopping_tick (run s0 inp N) (inp N) hg
    exact ⟨ht.1, ht.2.2.2, ht.2.1, ht.2.2.1⟩
  | succ m hNm ih =>
    have hstopm : (run s0 inp (m + 1)).stopped = true := ih.2.1
    have ha := loopStep_stopped_absorb (run s0 inp (m + 1)) (inp (m + 1)) hstopm
    refine ⟨ha.2.1, ha.1, ?_, ?_⟩
    · show (loopStep (run s0 inp (m + 1)) (inp (m + 1))).1.rovers = _
      rw [ha.2.2.1, ih.2.2.1]
    · show (loopStep (run s0 inp (m + 1)) (inp (m + 1))).1.delaunayInput = _
      rw [ha.2.2.2, ih.2.2.2]

/-- Witness for C2: the concrete board `boardC2` (`cutoffMinFrames = 1`,
cutoff 25 fps) driven by ticks at 1 fps stops on tick 2 and stays stopped. -/
theorem claim_C2_witness :
    boardC2.numFramesBelowCutoff = 0 ∧ boardC2.stopped = false ∧
    boardC2.cutoffMinFrames = ((1 : ℕ) : ℝ) ∧
    (∀ k, k < 1 + 1 → lowTick (run boardC2 inputC2 k) (inputC2 k)) ∧
    ((∀ k, k ≤ 1 → (run boardC2 inputC2 k).stopped = false) ∧
      (run boardC2 inputC2 (1 + 1)).stopped = true ∧
      (∀ m, 1 ≤ m →
        (loopStep (run boardC2 inputC2 m) (inputC2 m)).2 = false ∧
        (run boardC2 inputC2 (m + 1)).stopped = true ∧
        (run boardC2 inputC2 (m + 1)).rovers =
          (run boardC2 inputC2 1).rovers ∧
        (run boardC2 inputC2 (m + 1)).delaunayInput =
          (run boardC2 inputC2 1).delaunayInput)) := by
  have hlow : ∀ k, k < 1 + 1 → lowTick (run boardC2 inputC2 k) (inputC2 k) := by
    intro k hk
    interval_cases k
    · unfold lowTick
      constructor
      · show (0 : ℝ) < (inputC2 0).nowMs - boardC2.previousFrameTimestampMs
        norm_num [inputC2, boardC2]
      · show 1000 / ((inputC2 0).nowMs - boardC2.previousFrameTimestampMs) ≤
          boardC2.cutoffFramerate
        norm_num [inputC2, boardC2]
    · have hp : (run boardC2 inputC2 1).previousFrameTimestampMs =
          (inputC2 0).nowMs :=
        loopStep_prevTs (run boardC2 inputC2 0) (inputC2 0)
      have hcf : (run boardC2 inputC2 1).cutoffFramerate =
          boardC2.cutoffFramerate :=
        loopStep_cutoffFramerate (run boardC2 inputC2 0) (inputC2 0)
      unfold lowTick
      rw [hp, hcf]
      constructor
      · norm_num [inputC2]
      · norm_num [inputC2, boardC2]
  exact ⟨rfl, rfl, by norm_num [boardC2], hlow,
    claim_C2_frame_governor boardC2 inputC2 1 rfl rfl (by norm_num [boardC2])
      hlow⟩

end V0

namespace VDyn

theorem roverPass_length_le (xmax ymax : ℝ) :
    ∀ m i rs, rs.length - i = m →
      (roverPass xmax ymax i rs).length ≤ rs.length := by
  intro m
  induction m using Nat.strong_induction_on with
  | _ m ih =>
    intro i rs hm
    unfold roverPass
    split
    · simp only
      split
      · rename_i h _
        have hle := ih
          (((rs.set i (moveRover rs[i])).eraseIdx i).length - (i + 1))
          (by simp only [List.length_eraseIdx, List.length_set]
              rw [if_pos h]
              omega)
          (i + 1) ((rs.set i (moveRover rs[i])).eraseIdx i) rfl
        have hlen : ((rs.set i (moveRover rs[i])).eraseIdx i).length ≤
            rs.length := by
          simp only [List.length_eraseIdx, List.length_set]
          rw [if_pos h]
          omega
        exact le_trans hle hlen
      · rename_i h _
        have hle := ih ((rs.set i (moveRover rs[i])).length - (i + 1))
          (by simp only [List.length_set]; omega)
          (i + 1) (rs.set i (moveRover rs[i])) rfl
        simpa only [List.length_set] using hle
    · exact le_refl _

theorem loopStep_rovers_bound (xmax ymax : ℝ) (s : GameBoard) (inp : Input)
    (hs : s.rovers.length ≤ MAX_ROVERS + 1) :
    (loopStep xmax ymax s inp).1.rovers.length ≤ MAX_ROVERS + 1 := by
  unfold loopStep
  simp only
  split
  · exact hs
  · have hs1 : (governorUpdate s inp.nowMs).rovers = s.rovers := rfl
    have h1 : (if (governorUpdate s inp.nowMs).rovers.length > MAX_ROVERS
        then (governorUpdate s inp.nowMs).rovers.eraseIdx 0
        else (governorUpdate s inp.nowMs).rovers).length ≤ MAX_ROVERS := by
      split
      · rename_i hgt
        simp only [List.length_eraseIdx, hs1] at hgt ⊢
        rw [if_pos (by omega)]
        omega
      · rename_i hle
        rw [hs1] at hle ⊢
        omega
    refine le_trans (roverPass_length_le xmax ymax _ 0 _ rfl) ?_
    split
    · rename_i hsp
      simp only [List.length_append, List.length_singleton]
      omega
    · omega

/-- C10: under the dynamic lifecycle with the max-population prune, the
number of live rovers at the end of every tick never exceeds
`MAX_ROVERS + 1`: each tick first removes the oldest rover whenever the
count exceeds `MAX_ROVERS`, then spawns at most one new rover, and the
move-and-delete pass only removes. -/
theorem claim_C10_population_bound (width height : ℝ) (nF : ℕ)
    (ris cf cmf startMs : ℝ) (cd : ConstructDraws) (xmax ymax : ℝ)
    (inp : ℕ → Input) (n : ℕ) :
    (run xmax ymax (construct width height nF ris cf cmf startMs cd)
      inp n).rovers.length ≤ MAX_ROVERS + 1 := by
  induction n with
  | zero =>
    show ([] : List Rover).length ≤ MAX_ROVERS + 1
    simp [MAX_ROVERS]
  | succ n ih => exact loopStep_rovers_bound xmax ymax _ (inp n) ih

end VDyn

namespace V1

theorem moveRover_roverA7 :
    moveRover roverA7 = { roverA7 with location := ⟨5001, 50⟩ } := by
  unfold moveRover roverA7
  simp only [Vector2.minus, Vector2.plus]
  norm_num [Real.arctan_zero, Real.cos_zero, Real.sin_zero, TARGET_FPS]

/-- C7 (failing input): the removal rule is not an if-and-only-if.  With two
consecutive rovers that have both entered the screen and both sit beyond the
clip margin (arena `1000 × 1000`, clip `10`), the pass removes the first,
but the `splice` inside `forEach` shifts the array so the second is skipped:
it survives the tick even though it has entered (`hasEnteredScreen = true`)
and its location `(6000, 60)` lies beyond the clip margin. -/
theorem claim_C7_forEach_splice_skips_rover :
    roverPass 1000 1000 0 [roverA7, roverB7] = [roverB7] ∧
    roverB7.hasEnteredScreen = true ∧
    roverB7.location.x = 6000 ∧ (6000 : ℝ) > 1000 + CLIP_DISTANCE := by
  refine ⟨?_, rfl, rfl, by norm_num [CLIP_DISTANCE]⟩
  unfold roverPass
  rw [dif_pos (by simp)]
  simp only [List.getElem_cons_zero]
  rw [moveRover_roverA7]
  rw [if_neg (by simp [roverA7])]
  rw [if_pos (by norm_num [roverA7, CLIP_DISTANCE])]
  show roverPass 1000 1000 1 [roverB7] = [roverB7]
  unfold roverPass
  rw [dif_neg (by simp)]

end V1

namespace JS

/-- C5 (counterexample): the spawner performs no degenerate-chord handling,
and `Infinity` reaches rover state.  For the horizontal chord through
`(50, 50)` at angle `0` (`sin = 0`, `cos = 1`, so slope `m = 0`) in a
`1000 × 1000` arena with clip `100`, the intersection with `y = ymax` is
`(ymax - b) / 0 = +Infinity`; the despawn point is not clamped, so the
rover is created with `despawn.x = +Infinity`. -/
theorem claim_C5_counterexample :
    (spawnRover (JSNum.num 1000) (JSNum.num 1000) (JSNum.num 100)
      (JSNum.num 50) (JSNum.num 50) (JSNum.num 0) (JSNum.num 1)
      true).despawn.x = JSNum.inf true := by
  norm_num [spawnRover, computeChordJS, sortByX, insertV, JSNum.leB,
    JSNum.div, JSNum.sub, JSNum.mul, JSNum.add, JSNum.neg, JSNum.jsMax,
    JSNum.jsMin]

/-- C5 (amended): the spawner neither detects `|cos(angle)| < ε` nor
special-cases degenerate chords; for the horizontal chord at angle `0` the
clamped spawn point (and hence the initial location) stays finite at
`(-100, 0)`, but the unclamped despawn point stored in the new rover is
`(+Infinity, 1000)`. -/
theorem claim_C5_infinity_reaches_rover_state :
    (spawnRover (JSNum.num 1000) (JSNum.num 1000) (JSNum.num 100)
        (JSNum.num 50) (JSNum.num 50) (JSNum.num 0) (JSNum.num 1) true).spawn =
      ⟨JSNum.num (-100), JSNum.num 0⟩ ∧
    (spawnRover (JSNum.num 1000) (JSNum.num 1000) (JSNum.num 100)
        (JSNum.num 50) (JSNum.num 50) (JSNum.num 0) (JSNum.num 1)
        true).location = ⟨JSNum.num (-100), JSNum.num 0⟩ ∧
    (spawnRover (JSNum.num 1000) (JSNum.num 1000) (JSNum.num 100)
        (JSNum.num 50) (JSNum.num 50) (JSNum.num 0) (JSNum.num 1)
        true).despawn = ⟨JSNum.inf true, JSNum.num 1000⟩ := by
  refine ⟨?_, ?_, ?_⟩ <;>
    norm_num [spawnRover, computeChordJS, sortByX, insertV, JSNum.leB,
      JSNum.div, JSNum.sub, JSNum.mul, JSNum.add, JSNum.neg, JSNum.jsMax,
      JSNum.jsMin]

end JS

namespace V0

/-- C6 (counterexample): construction does not fail on out-of-range
configuration.  With `cutoffMinFrames = -5` the constructor still produces a
board object, storing the out-of-range value as-is, with a live (not
stopped) governor and its rover and fixed-point lists fully populated. -/
theorem claim_C6_counterexample :
    (construct 1000 1000 1 2 25 (-5) 0 cdC6).cutoffMinFrames = -5 ∧
    (construct 1000 1000 1 2 25 (-5) 0 cdC6).stopped = false ∧
    (construct 1000 1000 1 2 25 (-5) 0 cdC6).rovers.length = 2 ∧
    (construct 1000 1000 1 2 25 (-5) 0 cdC6).fixedPoints.length = 1 := by
  refine ⟨rfl, rfl, ?_, ?_⟩ <;> simp [construct]

/-- C6 (amended): the `GameBoard` constructor performs no configuration
validation: for every configuration — including out-of-range ones such as
`cutoffMinFrames ≤ 0` — it produces a board that stores the given values
unchanged, with an empty-history governor and `numRovers` rovers and
`numFixedPoints` fixed points.  (`maxSpeed`/`minSpeed` are module constants
`ROVER_MIN_SPEED < ROVER_MAX_SPEED`, not configurable.) -/
theorem claim_C6_construction_never_fails (width height : ℝ) (nF nR : ℕ)
    (cf cmf startMs : ℝ) (cd : ConstructDraws) :
    (construct width height nF nR cf cmf startMs cd).cutoffFramerate = cf ∧
    (construct width height nF nR cf cmf startMs cd).cutoffMinFrames = cmf ∧
    (construct width height nF nR cf cmf startMs cd).stopped = false ∧
    (construct width height nF nR cf cmf startMs cd).numFramesBelowCutoff
      = 0 ∧
    (construct width height nF nR cf cmf startMs cd).rovers.length = nR ∧
    (construct width height nF nR cf cmf startMs cd).fixedPoints.length
      = nF := by
  refine ⟨rfl, rfl, rfl, rfl, ?_, ?_⟩ <;> simp [construct]

end V0

theorem headD_mem {α : Type} (l : List α) (d : α) (h : l ≠ []) :
    l.headD d ∈ l := by
  cases l with
  | nil => exact absurd rfl h
  | cons a t => simp [List.headD]

theorem getLastD_mem {α : Type} (l : List α) (d : α) (h : l ≠ []) :
    l.getLastD d ∈ l := by
  rw [List.getLastD_eq_getLast?, List.getLast?_eq_getLast l h]
  exact List.getLast_mem h

/-- C4: for every chord produced by the spawner — any interior anchor point,
any angle of the unit circle (given by its sine and cosine), any direction
coin — the spawn point after clamping lies in the clip rectangle
`[-clip, xmax+clip] × [-clip, ymax+clip]`, while the despawn point is left
unclamped: it is one of the four raw boundary-intersection candidates. -/
theorem claim_C4_spawn_clamped_despawn_raw
    (xmax ymax clip : ℝ) (anchor : Vector2) (sinA cosA : ℝ) (coin : Bool)
    (hclip : 0 ≤ clip) (hx : 0 ≤ xmax) (hy : 0 ≤ ymax)
    (hax0 : 0 < anchor.x) (hax1 : anchor.x < xmax)
    (hay0 : 0 < anchor.y) (hay1 : anchor.y < ymax)
    (hangle : sinA ^ 2 + cosA ^ 2 = 1) :
    (-clip ≤ (computeChord xmax ymax clip anchor sinA cosA coin).1.x ∧
      (computeChord xmax ymax clip anchor sinA cosA coin).1.x ≤ xmax + clip ∧
      -clip ≤ (computeChord xmax ymax clip anchor sinA cosA coin).1.y ∧
      (computeChord xmax ymax clip anchor sinA cosA coin).1.y ≤ ymax + clip) ∧
    (computeChord xmax ymax clip anchor sinA cosA coin).2 ∈
      chordCandidates xmax ymax anchor sinA cosA := by
  constructor
  · have hxbox : -clip ≤ xmax + clip := by linarith
    have hybox : -clip ≤ ymax + clip := by linarith
    simp only [computeChord]
    refine ⟨?_, ?_, ?_, ?_⟩
    · exact le_min (le_trans (by linarith) (le_max_right _ _)) hxbox
    · exact min_le_right _ _
    · exact le_min (le_trans (by linarith) (le_max_right _ _)) hybox
    · exact min_le_right _ _
  · have hperm :
        List.Perm
          ((chordCandidates xmax ymax anchor sinA cosA).insertionSort
            (fun a b => a.x ≤ b.x))
          (chordCandidates xmax ymax anchor sinA cosA) :=
      List.perm_insertionSort _ _
    have hne :
        (chordCandidates xmax ymax anchor sinA cosA).insertionSort
            (fun a b => a.x ≤ b.x) ≠ [] := by
      intro hnil
      have := hperm.length_eq
      rw [hnil] at this
      simp [chordCandidates] at this
    simp only [computeChord]
    cases coin <;> simp only [if_true, if_false, Bool.false_eq_true] <;>
      [exact hperm.mem_iff.mp (headD_mem _ _ hne);
       exact hperm.mem_iff.mp (getLastD_mem _ _ hne)]

/-- Witness for C4 at a concrete input: arena `1000 × 1000`, `clip = 100`,
anchor `(50, 60)`, `sin = 3/5`, `cos = 4/5`, coin `true`. -/
theorem claim_C4_witness :
    (0 : ℝ) ≤ 100 ∧ (0 : ℝ) ≤ 1000 ∧
      (0 : ℝ) < 50 ∧ (50 : ℝ) < 1000 ∧ (0 : ℝ) < 60 ∧ (60 : ℝ) < 1000 ∧
      ((3 : ℝ) / 5) ^ 2 + ((4 : ℝ) / 5) ^ 2 = 1 ∧
    ((-(100 : ℝ) ≤ (computeChord 1000 1000 100 ⟨50, 60⟩ (3 / 5) (4 / 5) true).1.x ∧
      (computeChord 1000 1000 100 ⟨50, 60⟩ (3 / 5) (4 / 5) true).1.x ≤ 1000 + 100 ∧
      -(100 : ℝ) ≤ (computeChord 1000 1000 100 ⟨50, 60⟩ (3 / 5) (4 / 5) true).1.y ∧
      (computeChord 1000 1000 100 ⟨50, 60⟩ (3 / 5) (4 / 5) true).1.y ≤ 1000 + 100) ∧
    (computeChord 1000 1000 100 ⟨50, 60⟩ (3 / 5) (4 / 5) true).2 ∈
      chordCandidates 1000 1000 ⟨50, 60⟩ (3 / 5) (4 / 5)) :=
  ⟨by norm_num, by norm_num, by norm_num, by norm_num, by norm_num, by norm_num,
    by norm_num,
    claim_C4_spawn_clamped_despawn_raw 1000 1000 100 ⟨50, 60⟩ (3 / 5) (4 / 5) true
      (by norm_num) (by norm_num) (by norm_num) (by norm_num) (by norm_num)
      (by norm_num) (by norm_num) (by norm_num)⟩

/-- C9: the movement step changes only the rover's `location` field; `spawn`,
`despawn`, `speed` and `color` are identical before and after the advance. -/
theorem claim_C9_move_changes_only_location (targetFPS : ℝ) (r : V0.Rover) :
    (V0.moveRover targetFPS r).spawn = r.spawn ∧
    (V0.moveRover targetFPS r).despawn = r.despawn ∧
    (V0.moveRover targetFPS r).speed = r.speed ∧
    (V0.moveRover targetFPS r).color = r.color := by
  rcases r with ⟨loc, sp, dp, speed, color⟩
  cases sp <;> cases dp <;> simp [V0.moveRover]
